import Mathlib

/-!  Shallow embedding of `src/obsnerds/trajectory_engine.py`.

Machine floats are modelled as exact rationals; Python `int()` truncation
toward zero as `pyInt`; numpy elementwise float division (which yields
±infinity or NaN on a zero divisor instead of raising) as `npDiv` into the
extended value type `ExtQ`; numpy arrays as lists.  The astropy coordinate
transforms (galactic → ICRS → AltAz) are external collaborators and enter
the galactic generator as abstract function parameters.  -/

namespace Obsnerd

/-- Python `int()` applied to a real value: truncation toward zero. -/
def pyInt (q : ℚ) : ℤ := if 0 ≤ q then ⌊q⌋ else ⌈q⌉

/-- Extended value produced by a numpy float division: a finite rational,
positive or negative infinity, or NaN. -/
inductive ExtQ where
  | fin (q : ℚ)
  | inf
  | neginf
  | nan
deriving DecidableEq, Repr

/-- numpy float division of finite operands: division by zero emits a
runtime warning and yields ±infinity (or NaN for 0/0), it does not raise. -/
def npDiv (a b : ℚ) : ExtQ :=
  if b ≠ 0 then .fin (a / b)
  else if 0 < a then .inf
  else if a < 0 then .neginf
  else .nan

/-- Whether an extended value is finite. -/
def ExtQ.isFinite : ExtQ → Bool
  | .fin _ => true
  | _ => false

/-- `np.diff`: consecutive differences, one shorter than the input. -/
def npDiff (xs : List ℚ) : List ℚ := List.zipWith (fun a b => b - a) xs xs.tail

/-- `Track`: the nine per-sample parameter sequences created by
`Track.__init__` (timestamp, obstime, az, el, ra, dec, l, b, ir).  Sample
values are modelled as rationals: `timestamp` holds integer nanoseconds,
`obstime` the same instant as TAI seconds, the rest are the float fields. -/
structure Track where
  timestamp : List ℚ := []
  obstime : List ℚ := []
  az : List ℚ := []
  el : List ℚ := []
  ra : List ℚ := []
  dec : List ℚ := []
  l : List ℚ := []
  b : List ℚ := []
  ir : List ℚ := []
deriving DecidableEq, Repr

/-- `self.parameters`, the list of allowed parameter names. -/
def Track.parameters : List String :=
  ["timestamp", "obstime", "az", "el", "ra", "dec", "l", "b", "ir"]

/-- `getattr(self, name)` for the nine declared parameters (any other name
has no sequence attached; the junk value `[]` is returned for it). -/
def Track.getParam (t : Track) (key : String) : List ℚ :=
  if key = "timestamp" then t.timestamp
  else if key = "obstime" then t.obstime
  else if key = "az" then t.az
  else if key = "el" then t.el
  else if key = "ra" then t.ra
  else if key = "dec" then t.dec
  else if key = "l" then t.l
  else if key = "b" then t.b
  else if key = "ir" then t.ir
  else []

/-- `setattr(self, key, val)` for a declared parameter; identity for any
other key (`Track.__init__` only calls it on declared parameters). -/
def Track.setParam (t : Track) (key : String) (val : List ℚ) : Track :=
  if key = "timestamp" then { t with timestamp := val }
  else if key = "obstime" then { t with obstime := val }
  else if key = "az" then { t with az := val }
  else if key = "el" then { t with el := val }
  else if key = "ra" then { t with ra := val }
  else if key = "dec" then { t with dec := val }
  else if key = "l" then { t with l := val }
  else if key = "b" then { t with b := val }
  else if key = "ir" then { t with ir := val }
  else t

/-- `Track.__init__(name, **kwargs)`: every declared parameter starts as an
empty sequence; each keyword argument whose key is a declared parameter
overwrites that sequence; an unknown key prints a console notice and is
skipped.  Returns the constructed track and the printed notices. -/
def Track.init (kwargs : List (String × List ℚ)) : Track × List String :=
  kwargs.foldl
    (fun acc kv =>
      if kv.1 ∈ Track.parameters then (acc.1.setParam kv.1 kv.2, acc.2)
      else (acc.1, acc.2 ++ [kv.1 ++ " not allowed parameter"]))
    ({}, [])

/-- One step of `Track.add`: `getattr(self, key).append(value)`.  An
unknown key raises AttributeError, modelled as `none`.  No length
synchronisation check of any kind is performed. -/
def Track.appendParam (t : Track) (key : String) (v : ℚ) : Option Track :=
  if key = "timestamp" then some { t with timestamp := t.timestamp ++ [v] }
  else if key = "obstime" then some { t with obstime := t.obstime ++ [v] }
  else if key = "az" then some { t with az := t.az ++ [v] }
  else if key = "el" then some { t with el := t.el ++ [v] }
  else if key = "ra" then some { t with ra := t.ra ++ [v] }
  else if key = "dec" then some { t with dec := t.dec ++ [v] }
  else if key = "l" then some { t with l := t.l ++ [v] }
  else if key = "b" then some { t with b := t.b ++ [v] }
  else if key = "ir" then some { t with ir := t.ir ++ [v] }
  else none

/-- `Track.add(**kwargs)`: appends each value to its named sequence, in
order; fails (AttributeError) only on an unknown attribute name. -/
def Track.add (t : Track) (kwargs : List (String × ℚ)) : Option Track :=
  kwargs.foldlM (fun acc kv => acc.appendParam kv.1 kv.2) t

/-- The az/el/timestamp/obstime synchronized-length group. -/
def Track.syncGroupEqual (t : Track) : Prop :=
  t.az.length = t.el.length ∧ t.az.length = t.timestamp.length ∧
    t.az.length = t.obstime.length

instance (t : Track) : Decidable t.syncGroupEqual := by
  unfold Track.syncGroupEqual; infer_instance

/-- `Track.rates`: `dt = np.diff(self.timestamp) / 1E9`;
`self.dazdt = np.diff(self.az) / dt`; `self.deldt = np.diff(self.el) / dt`
(numpy elementwise float division).  Returns `(dazdt, deldt)`. -/
def Track.rates (t : Track) : List ExtQ × List ExtQ :=
  let dt := (npDiff t.timestamp).map (fun x => x / 1000000000)
  (List.zipWith npDiv (npDiff t.az) dt, List.zipWith npDiv (npDiff t.el) dt)

/-- One formatted line of the ephemeris file: timestamp, az, el, ir. -/
structure EphemRow where
  tai : ℚ
  az : ℚ
  el : ℚ
  ir : ℚ
deriving DecidableEq, Repr

/-- `Track.ephem_file`: assembles the rows written to the ephemeris file.
The guarded block (`if True:` with the console notice `NEED TO GET
DISTANCES FROM SOPP`) always runs and overwrites `self.ir` with the
`1E-20` sentinel before the rows are assembled, regardless of any
inverse-range values already carried by the track.  Returns the mutated
track and the rows written. -/
def Track.ephem_file (t : Track) : Track × List EphemRow :=
  let sentinel : ℚ := 1 / 10 ^ 20
  let ir2 : List ℚ := List.replicate t.timestamp.length sentinel
  let t2 : Track := { t with ir := ir2 }
  (t2, List.zipWith (fun p i => EphemRow.mk p.1.1 p.1.2 p.2 i)
        ((t.timestamp.zip t.az).zip t.el) ir2)

/-- `np.arange(0.0, stop, step)` for a positive step: the values
`i * step` for `i < ⌈stop / step⌉`. -/
def arangeQ (stop step : ℚ) : List ℚ :=
  (List.range (Int.toNat ⌈stop / step⌉)).map (fun i : ℕ => (i : ℚ) * step)

/-- `np.arange(0, stop, step)` on integers, positive step. -/
def arangeZ (stop step : ℤ) : List ℤ :=
  (List.range (Int.toNat ⌈(stop : ℚ) / (step : ℚ)⌉)).map (fun i : ℕ => (i : ℤ) * step)

/-- `Trajectory.__init__` configuration.  `startTai` is the timezone-shifted
start instant `Time(start_time) - tz` expressed as `unix_tai` seconds;
`time_to_track` is in minutes, `tstep` in seconds, `el_horizon` in
degrees. -/
structure TrajectoryConfig where
  startTai : ℚ
  time_to_track : ℚ
  tstep : ℚ
  el_horizon : ℚ
deriving DecidableEq, Repr

/-- `self.time_to_track` converted to seconds (`float(time_to_track) * 60`). -/
def TrajectoryConfig.durationSec (c : TrajectoryConfig) : ℚ := c.time_to_track * 60

/-- `self.track_Time = self.start_time + np.arange(0.0, time_to_track, tstep)`
seconds, kept here as TAI seconds. -/
def track_Time (c : TrajectoryConfig) : List ℚ :=
  (arangeQ c.durationSec c.tstep).map (fun x => c.startTai + x)

/-- `self.track_tsns = int(start_time.unix_tai * 1E9)
+ np.arange(0, int(time_to_track * 1E9), int(tstep * 1E9))`. -/
def track_tsns (c : TrajectoryConfig) : List ℤ :=
  (arangeZ (pyInt (c.durationSec * 10 ^ 9)) (pyInt (c.tstep * 10 ^ 9))).map
    (fun x => pyInt (c.startTai * 10 ^ 9) + x)

/-- `self.track_tsns` cast to rationals, as handed to the interpolants. -/
def gridTsOf (c : TrajectoryConfig) : List ℚ :=
  (track_tsns c).map (fun z : ℤ => (z : ℚ))

/-- A horizontal coordinate pair produced by the astropy AltAz transform. -/
structure AzEl where
  az : ℚ
  el : ℚ
deriving DecidableEq, Repr

/-- An equatorial coordinate pair produced by the astropy ICRS transform. -/
structure RaDec where
  ra : ℚ
  dec : ℚ
deriving DecidableEq, Repr

/-- The dense longitude sampling `np.arange(0.0, 359.9, 0.1)` used to pick
the sweep's starting longitude. -/
def lonGrid : List ℚ := arangeQ (3599 / 10) (1 / 10)

/-- The longitude advance of the `Trajectory.galactic` loop body:
`this_l = starting_l + i * (rate * tstep)`, then 360 is subtracted once
when the value strictly exceeds 360 degrees. -/
def galacticL (starting_l R : ℚ) (i : ℕ) : ℚ :=
  let this_l := starting_l + (i : ℚ) * R
  if this_l > 360 then this_l - 360 else this_l

/-- The externally observable generation state of a `Trajectory`: the
`self.valid` flag and `self.track` (`none` when the attribute was never
assigned). -/
structure TrajState where
  valid : Bool
  track : Option Track
deriving DecidableEq, Repr

/-- `Trajectory.galactic(b, rate)`.  The astropy chain
galactic → ICRS → AltAz is an external collaborator and is passed in
abstractly: `radecOf gl` is the ICRS coordinate of galactic `(gl, b)`
(time-independent), and `azelOf t gl` is its horizontal coordinate at
instant `t` at the observatory site.  If no longitude sample clears
`el_horizon` at the start instant, the trajectory is invalid and no track
is created.  Otherwise the track gets the full grid's timestamp/obstime
and one az/el/ra/dec/l/b sample per grid instant, appended with no further
horizon filtering; `ir` is never populated on this path. -/
def galacticGen (c : TrajectoryConfig) (azelOf : ℚ → ℚ → AzEl)
    (radecOf : ℚ → RaDec) (b rate : ℚ) : TrajState :=
  let above := lonGrid.filter (fun gl => decide (c.el_horizon < (azelOf c.startTai gl).el))
  match above with
  | [] => { valid := false, track := none }
  | starting_l :: _ =>
    let R := rate * c.tstep
    let n := (track_Time c).length
    let idx := List.range n
    let ls := idx.map (fun i => galacticL starting_l R i)
    let tr : Track :=
      { timestamp := gridTsOf c
        obstime := track_Time c
        az := idx.map (fun i => (azelOf ((track_Time c).getD i 0) (galacticL starting_l R i)).az)
        el := idx.map (fun i => (azelOf ((track_Time c).getD i 0) (galacticL starting_l R i)).el)
        ra := ls.map (fun gl => (radecOf gl).ra)
        dec := ls.map (fun gl => (radecOf gl).dec)
        l := ls
        b := List.replicate n b
        ir := [] }
    { valid := true, track := some tr }

/-- Linear interpolation on the segment from `p` to `q`. -/
def linSeg (p q : ℚ × ℚ) (x : ℚ) : ℚ :=
  p.2 + (q.2 - p.2) * (x - p.1) / (q.1 - p.1)

/-- Walk sorted knots to the segment bracketing `x` (callers have already
ruled out `x` below the first knot or above the last one). -/
def interpCore : List (ℚ × ℚ) → ℚ → ℚ
  | p :: q :: rest, x => if x ≤ q.1 then linSeg p q x else interpCore (q :: rest) x
  | [p], _ => p.2
  | [], _ => 0

/-- `scipy.interpolate.interp1d(xs, ys, fill_value=0.0, bounds_error=False)`
evaluated at `x`: the knots are sorted by abscissa (scipy's
`assume_sorted=False` default), a point outside the knots' abscissa span
yields the fill value `0.0`, and a point inside is piecewise-linearly
interpolated.  scipy raises on fewer than two knots (guarded at the call
site) and emits non-finite values on duplicate abscissae, which this exact
rational model does not capture; every theorem below assumes strictly
increasing abscissae. -/
def interp1d (knots : List (ℚ × ℚ)) (x : ℚ) : ℚ :=
  match knots.mergeSort (fun a b => decide (a.1 ≤ b.1)) with
  | [] => 0
  | p :: rest =>
    if x < p.1 ∨ ((p :: rest).getLast (List.cons_ne_nil p rest)).1 < x then 0
    else interpCore (p :: rest) x

/-- One parsed record of the external comma-delimited file:
`obstime` (TAI seconds), azimuth, elevation, range. -/
structure FileRecord where
  t : ℚ
  az : ℚ
  el : ℚ
  range : ℚ
deriving DecidableEq, Repr

/-- The input track's integer-nanosecond timestamps
`int(obstime.unix_tai * 1E9)`, as rationals. -/
def inputTsOf (records : List FileRecord) : List ℚ :=
  records.map (fun r => ((pyInt (r.t * 10 ^ 9) : ℤ) : ℚ))

/-- The elevation interpolant built by `Trajectory.from_file`. -/
def elFun (records : List FileRecord) : ℚ → ℚ :=
  interp1d ((inputTsOf records).zip (records.map FileRecord.el))

/-- The azimuth interpolant built by `Trajectory.from_file`. -/
def azFun (records : List FileRecord) : ℚ → ℚ :=
  interp1d ((inputTsOf records).zip (records.map FileRecord.az))

/-- The inverse-range interpolant built by `Trajectory.from_file`
(`ir = 1.0 / float(data[3])` per input record). -/
def irFun (records : List FileRecord) : ℚ → ℚ :=
  interp1d ((inputTsOf records).zip (records.map (fun r => 1 / r.range)))

/-- `_el = f(self.track.timestamp)`: the elevation interpolant evaluated on
the full integer grid. -/
def el0Of (c : TrajectoryConfig) (records : List FileRecord) : List ℚ :=
  (gridTsOf c).map (elFun records)

/-- `valid = np.where(_el > 0.0)`: the strictly-positive-elevation index
set. -/
def validIdxOf (c : TrajectoryConfig) (records : List FileRecord) : List ℕ :=
  (List.range (el0Of c records).length).filter
    (fun i => decide (0 < (el0Of c records).getD i 0))

/-- `self.track.timestamp = self.track.timestamp[valid]`: the kept grid
timestamps. -/
def keptTsOf (c : TrajectoryConfig) (records : List FileRecord) : List ℚ :=
  (validIdxOf c records).map (fun i => (gridTsOf c).getD i 0)

/-- The output track assembled by the overlap branch of
`Trajectory.from_file`: timestamp/obstime/el are the full-grid values at
the elevation-positive indices, then az and ir are interpolated at the
kept timestamps. -/
def resampledTrack (c : TrajectoryConfig) (records : List FileRecord) : Track :=
  { timestamp := keptTsOf c records
    obstime := (validIdxOf c records).map (fun i => (track_Time c).getD i 0)
    el := (validIdxOf c records).map (fun i => (el0Of c records).getD i 0)
    az := (keptTsOf c records).map (azFun records)
    ir := (keptTsOf c records).map (irFun records) }

/-- `Trajectory.from_file(filename)` on the parsed records.  `none` models a
raised exception: an empty grid (`track_Time[0]` fails) or fewer than two
input records handed to `interp1d`.  Otherwise: the output track is
created from the full grid before the overlap check, so when no input
record's obstime falls within `[track_Time[0], track_Time[-1]]` the
trajectory is marked invalid but that grid-initialised track remains.
With overlap, elevation is interpolated onto the integer grid, the
strictly-positive-elevation index set `np.where(_el > 0.0)` selects the
kept samples of timestamp/obstime/el, and azimuth and inverse range are
interpolated at the kept timestamps. -/
def fromFileGen (c : TrajectoryConfig) (records : List FileRecord) : Option TrajState :=
  if track_Time c = [] then none
  else
    let t0 := (track_Time c).headI
    let tl := (track_Time c).getLastD 0
    let track0 : Track := { timestamp := gridTsOf c, obstime := track_Time c }
    let overlap := records.any (fun r => decide (t0 ≤ r.t) && decide (r.t ≤ tl))
    if overlap = false then
      some { valid := false, track := some track0 }
    else if records.length < 2 then none
    else some { valid := true, track := some (resampledTrack c records) }

/-! Generic list helpers used by several proofs below. -/

theorem getD_eq_getElem {α : Type} (l : List α) (i : ℕ) (h : i < l.length) (d : α) :
    l.getD i d = l[i] := by
  simp [List.getD_eq_getElem?_getD, List.getElem?_eq_getElem h]

theorem getD_zipWith {α β γ : Type} (f : α → β → γ) :
    ∀ (xs : List α) (ys : List β) (i : ℕ), i < xs.length → i < ys.length →
      ∀ (da : α) (db : β) (dc : γ),
        (List.zipWith f xs ys).getD i dc = f (xs.getD i da) (ys.getD i db)
  | _ :: _, _ :: _, 0, _, _, _, _, _ => rfl
  | _ :: xs, _ :: ys, i + 1, h1, h2, da, db, dc => by
    simpa using getD_zipWith f xs ys i (by simpa using h1) (by simpa using h2) da db dc

theorem getD_map {α β : Type} (f : α → β) :
    ∀ (xs : List α) (i : ℕ), i < xs.length → ∀ (d : α) (d2 : β),
      (xs.map f).getD i d2 = f (xs.getD i d)
  | _ :: _, 0, _, _, _ => rfl
  | _ :: xs, i + 1, h, d, d2 => by
    simpa using getD_map f xs i (by simpa using h) d d2

theorem getD_tail {α : Type} (xs : List α) (i : ℕ) (d : α) :
    xs.tail.getD i d = xs.getD (i + 1) d := by
  cases xs <;> rfl

theorem npDiff_length (xs : List ℚ) : (npDiff xs).length = xs.length - 1 := by
  simp [npDiff]

theorem npDiff_getD (xs : List ℚ) (i : ℕ) (h : i + 1 < xs.length) :
    (npDiff xs).getD i 0 = xs.getD (i + 1) 0 - xs.getD i 0 := by
  unfold npDiff
  rw [getD_zipWith _ xs xs.tail i (by omega) (by simp [List.length_tail]; omega) 0 0 0,
    getD_tail]

/-! Claim C1 — the inverse range written by `ephem_file`. -/

/-- A track of the kind produced by the file-resample path: two samples
with computed inverse ranges 1/2 and 1/4 (input ranges 2 and 4). -/
def c1Track : Track :=
  { timestamp := [0, 1000000000], obstime := [0, 1],
    az := [10, 20], el := [45, 50], ir := [1 / 2, 1 / 4] }

/-- C1: evaluating `ephem_file` on a track that carries computed
inverse-range values shows the claim's divergence: the rows written (and
the track's own `ir` attribute) hold the `1E-20` sentinel for every
sample, not the computed inverse ranges that were present. -/
theorem c1_ephem_ir_always_sentinel :
    c1Track.ir = [1 / 2, 1 / 4] ∧
    (Track.ephem_file c1Track).2.map EphemRow.ir = [1 / 10 ^ 20, 1 / 10 ^ 20] ∧
    (Track.ephem_file c1Track).1.ir = [1 / 10 ^ 20, 1 / 10 ^ 20] ∧
    ((1 : ℚ) / 10 ^ 20 ≠ 1 / 2) := by
  refine ⟨rfl, rfl, rfl, by norm_num⟩

/-! Claim C2 — `Track.add` and the synchronized-length group. -/

/-- C2: counterexample to the claim as stated.  Appending only `az` to an
empty track leaves the az/el/timestamp/obstime group with unequal lengths,
yet the call completes normally (`some`) instead of failing with a usage
error. -/
theorem c2_add_counterexample :
    Track.add {} [("az", 1)] = some { az := [1] } ∧
    ¬ Track.syncGroupEqual { az := [(1 : ℚ)] } := by
  refine ⟨rfl, by decide⟩

theorem appendParam_of_mem (t : Track) (k : String) (hk : k ∈ Track.parameters) (v : ℚ) :
    ∃ t2, t.appendParam k v = some t2 ∧
      ∀ p ∈ Track.parameters,
        (t2.getParam p).length = (t.getParam p).length + (if k = p then 1 else 0) := by
  fin_cases hk <;>
    exact ⟨_, rfl, by intro p hp; fin_cases hp <;> simp [Track.appendParam, Track.getParam]⟩

/-- C2 amended: `Track.add` performs no length-synchronisation check of any
kind.  Every call whose keys are declared parameters completes normally,
appending exactly one value per named key to that key's sequence and
leaving every other sequence untouched — even when this leaves the
az/el/timestamp/obstime group with unequal lengths. -/
theorem c2_add_amended (t : Track) (kwargs : List (String × ℚ))
    (hk : ∀ kv ∈ kwargs, kv.1 ∈ Track.parameters) :
    ∃ t2, Track.add t kwargs = some t2 ∧
      ∀ p ∈ Track.parameters,
        (t2.getParam p).length =
          (t.getParam p).length + kwargs.countP (fun kv => decide (kv.1 = p)) := by
  induction kwargs generalizing t with
  | nil => exact ⟨t, rfl, by simp⟩
  | cons kv rest ih =>
    obtain ⟨t1, h1, hlen1⟩ := appendParam_of_mem t kv.1 (hk kv (List.mem_cons_self kv rest)) kv.2
    obtain ⟨t2, h2, hlen2⟩ := ih t1 (fun x hx => hk x (List.mem_cons_of_mem kv hx))
    refine ⟨t2, ?_, ?_⟩
    · simp [Track.add, List.foldlM_cons, h1]
      simpa [Track.add] using h2
    · intro p hp
      rw [hlen2 p hp, hlen1 p hp, List.countP_cons]
      have : (decide (kv.1 = p)) = true ↔ kv.1 = p := by simp
      by_cases hkp : kv.1 = p <;> simp [hkp] <;> omega

/-- C2 amended, witness: adding az and el only, onto an empty track. -/
theorem c2_add_amended_witness :
    ∃ t2, Track.add {} [("az", 1), ("el", 2)] = some t2 ∧
      ∀ p ∈ Track.parameters,
        (t2.getParam p).length =
          ((({} : Track)).getParam p).length +
            [(("az", (1 : ℚ))), ("el", 2)].countP (fun kv => decide (kv.1 = p)) :=
  c2_add_amended {} [("az", 1), ("el", 2)] (by decide)

/-! Claim C7 — galactic longitude advance and wrapping. -/

/-- C7: counterexample to the claim as stated.  With starting longitude 0
and a per-step advance of 100 degrees, sample 8 stores longitude 440: the
single conditional subtraction of 360 does not bring values ≥ 720 back
into [0, 360). -/
theorem c7_wrap_counterexample :
    galacticL 0 100 8 = 440 ∧ ¬ (galacticL 0 100 8 < 360) := by
  constructor
  · norm_num [galacticL]
  · norm_num [galacticL]

/-- C7 amended: the stored longitude is the starting longitude advanced by
`i * (rate * tstep)` with 360 subtracted at most once, and only when the
advanced value strictly exceeds 360.  The result lies in [0, 360) only
under the extra conditions that the advanced value stays below 720 and is
not exactly 360 (the code's `>` comparison leaves an exact 360 in place). -/
theorem c7_wrap_amended (s R : ℚ) (i : ℕ) (h0 : 0 ≤ s) (hR : 0 ≤ R)
    (hlt : s + (i : ℚ) * R < 720) (hne : s + (i : ℚ) * R ≠ 360) :
    galacticL s R i =
      (if 360 < s + (i : ℚ) * R then s + (i : ℚ) * R - 360 else s + (i : ℚ) * R) ∧
    0 ≤ galacticL s R i ∧ galacticL s R i < 360 := by
  have hiR : 0 ≤ (i : ℚ) * R := mul_nonneg (by positivity) hR
  have h360 : s + (i : ℚ) * R ≤ 360 → s + (i : ℚ) * R < 360 :=
    fun h => lt_of_le_of_ne h hne
  simp only [galacticL]
  refine ⟨trivial, ?_, ?_⟩ <;> split_ifs with h
  · linarith
  · linarith
  · linarith
  · exact h360 (not_lt.mp h)

/-- C7 amended, witness: starting longitude 350, advance 10 per step,
sample 2 wraps 370 to 10. -/
theorem c7_wrap_amended_witness :
    galacticL 350 10 2 =
      (if 360 < (350 : ℚ) + (2 : ℕ) * 10 then (350 : ℚ) + (2 : ℕ) * 10 - 360
        else (350 : ℚ) + (2 : ℕ) * 10) ∧
    0 ≤ galacticL 350 10 2 ∧ galacticL 350 10 2 < 360 :=
  c7_wrap_amended 350 10 2 (by norm_num) (by norm_num) (by norm_num) (by norm_num)

/-! Claim C10 — `Track.__init__` keyword handling. -/

theorem getParam_empty (p : String) : (({} : Track)).getParam p = [] := by
  unfold Track.getParam
  split_ifs <;> rfl

theorem getParam_not_mem (t : Track) (p : String) (h : p ∉ Track.parameters) :
    t.getParam p = [] := by
  unfold Track.getParam
  split_ifs <;> simp_all [Track.parameters]

theorem getParam_setParam_ne (t : Track) (k : String) (v : List ℚ) (p : String)
    (hk : k ∈ Track.parameters) (hp : p ∈ Track.parameters) (h : k ≠ p) :
    (t.setParam k v).getParam p = t.getParam p := by
  fin_cases hk <;> fin_cases hp <;> first
    | exact absurd rfl h
    | rfl

theorem init_go (kwargs : List (String × List ℚ)) :
    ∀ (t : Track) (ns : List String),
      kwargs.foldl
        (fun acc kv =>
          if kv.1 ∈ Track.parameters then (acc.1.setParam kv.1 kv.2, acc.2)
          else (acc.1, acc.2 ++ [kv.1 ++ " not allowed parameter"])) (t, ns) =
      ((kwargs.filter (fun kv => decide (kv.1 ∈ Track.parameters))).foldl
          (fun acc kv => acc.setParam kv.1 kv.2) t,
        ns ++ (kwargs.filter (fun kv => decide (kv.1 ∉ Track.parameters))).map
          (fun kv => kv.1 ++ " not allowed parameter")) := by
  induction kwargs with
  | nil => intro t ns; simp
  | cons kv rest ih =>
    intro t ns
    by_cases h : kv.1 ∈ Track.parameters <;>
      simp [List.filter_cons, h, ih, List.append_assoc]

theorem foldl_setParam_getParam_of_ne (p : String) (hp : p ∈ Track.parameters) :
    ∀ (l : List (String × List ℚ)) (t : Track), (∀ kv ∈ l, kv.1 ∈ Track.parameters) →
      (∀ kv ∈ l, kv.1 ≠ p) →
      (l.foldl (fun acc kv => acc.setParam kv.1 kv.2) t).getParam p = t.getParam p
  | [], _, _, _ => rfl
  | kv :: rest, t, hmem, h => by
    rw [List.foldl_cons,
      foldl_setParam_getParam_of_ne p hp rest _
        (fun x hx => hmem x (List.mem_cons_of_mem kv hx))
        (fun x hx => h x (List.mem_cons_of_mem kv hx)),
      getParam_setParam_ne t kv.1 kv.2 p (hmem kv (List.mem_cons_self kv rest)) hp
        (h kv (List.mem_cons_self kv rest))]

/-- C10: `Track.__init__` skips every keyword argument whose name is not a
declared parameter, emitting exactly one console notice for it and leaving
the state exactly as if the argument had not been passed; every declared
parameter not supplied is initialized to the empty sequence; and no name
outside the nine declared parameters carries a sequence. -/
theorem c10_init_kwargs (kwargs : List (String × List ℚ)) :
    (Track.init kwargs).2 =
      (kwargs.filter (fun kv => decide (kv.1 ∉ Track.parameters))).map
        (fun kv => kv.1 ++ " not allowed parameter") ∧
    (Track.init kwargs).1 =
      (Track.init (kwargs.filter (fun kv => decide (kv.1 ∈ Track.parameters)))).1 ∧
    (∀ p ∈ Track.parameters, (∀ kv ∈ kwargs, kv.1 ≠ p) →
      (Track.init kwargs).1.getParam p = []) ∧
    (∀ s2, s2 ∉ Track.parameters → (Track.init kwargs).1.getParam s2 = []) := by
  have hgo := init_go kwargs ({} : Track) []
  refine ⟨?_, ?_, ?_, ?_⟩
  · rw [Track.init, hgo]
    rfl
  · rw [Track.init, Track.init, hgo, init_go, List.filter_filter]
    simp
  · intro p hp hnone
    rw [Track.init, hgo]
    exact (foldl_setParam_getParam_of_ne p hp _ _
      (fun kv hkv => of_decide_eq_true (List.mem_filter.mp hkv).2)
      (fun kv hkv => hnone kv (List.mem_of_mem_filter hkv))).trans (getParam_empty p)
  · intro s2 hs2
    exact getParam_not_mem _ s2 hs2

/-- C10, witness: one valid keyword (`az`) and one unknown keyword
(`bogus`): the unknown key produces the console notice and no state, `el`
stays empty, and the non-parameter name carries no sequence. -/
theorem c10_init_kwargs_witness :
    (Track.init [("az", [1]), ("bogus", [2])]).2 =
      ([(("az", [(1 : ℚ)])), ("bogus", [2])].filter
          (fun kv => decide (kv.1 ∉ Track.parameters))).map
        (fun kv => kv.1 ++ " not allowed parameter") ∧
    (Track.init [("az", [1]), ("bogus", [2])]).1 =
      (Track.init ([(("az", [(1 : ℚ)])), ("bogus", [2])].filter
        (fun kv => decide (kv.1 ∈ Track.parameters)))).1 ∧
    (∀ p ∈ Track.parameters, (∀ kv ∈ [(("az", [(1 : ℚ)])), ("bogus", [2])], kv.1 ≠ p) →
      (Track.init [("az", [1]), ("bogus", [2])]).1.getParam p = []) ∧
    (∀ s2, s2 ∉ Track.parameters →
      (Track.init [("az", [1]), ("bogus", [2])]).1.getParam s2 = []) :=
  c10_init_kwargs [("az", [1]), ("bogus", [2])]

/-! Claim C9 — `Track.rates`. -/

theorem rates_getD (t : Track) (haz : t.az.length = t.timestamp.length) (i : ℕ)
    (hi : i + 1 < t.timestamp.length) :
    t.rates.1.getD i .nan =
      npDiv (t.az.getD (i + 1) 0 - t.az.getD i 0)
        ((t.timestamp.getD (i + 1) 0 - t.timestamp.getD i 0) / 1000000000) := by
  show (List.zipWith npDiv (npDiff t.az)
      ((npDiff t.timestamp).map (fun x => x / 1000000000))).getD i .nan = _
  rw [getD_zipWith npDiv _ _ i (by rw [npDiff_length]; omega)
      (by rw [List.length_map, npDiff_length]; omega) 0 0 .nan,
    getD_map _ _ i (by rw [npDiff_length]; omega) 0,
    npDiff_getD t.az i (by omega), npDiff_getD t.timestamp i hi]

theorem rates_getD_el (t : Track) (hel : t.el.length = t.timestamp.length) (i : ℕ)
    (hi : i + 1 < t.timestamp.length) :
    t.rates.2.getD i .nan =
      npDiv (t.el.getD (i + 1) 0 - t.el.getD i 0)
        ((t.timestamp.getD (i + 1) 0 - t.timestamp.getD i 0) / 1000000000) := by
  show (List.zipWith npDiv (npDiff t.el)
      ((npDiff t.timestamp).map (fun x => x / 1000000000))).getD i .nan = _
  rw [getD_zipWith npDiv _ _ i (by rw [npDiff_length]; omega)
      (by rw [List.length_map, npDiff_length]; omega) 0 0 .nan,
    getD_map _ _ i (by rw [npDiff_length]; omega) 0,
    npDiff_getD t.el i (by omega), npDiff_getD t.timestamp i hi]

/-- C9: `rates` produces `dazdt` and `deldt` exactly one shorter than the
track; entry `i` of `dazdt` equals `(az[i+1] - az[i])` divided by the
timestamp difference converted from nanoseconds to seconds, and likewise
entry `i` of `deldt` with el in place of az; equal consecutive timestamps
give a non-finite entry (±infinity or NaN) in both sequences with no
exception raised (the function is total); and a track with constant
azimuth and strictly increasing timestamps has an all-zero `dazdt`. -/
theorem c9_rates (t : Track)
    (haz : t.az.length = t.timestamp.length)
    (hel : t.el.length = t.timestamp.length) :
    (t.rates.1.length = t.timestamp.length - 1 ∧
      t.rates.2.length = t.timestamp.length - 1) ∧
    (∀ i, i + 1 < t.timestamp.length →
      ((t.timestamp.getD (i + 1) 0 ≠ t.timestamp.getD i 0 →
        t.rates.1.getD i .nan =
          .fin ((t.az.getD (i + 1) 0 - t.az.getD i 0) /
            ((t.timestamp.getD (i + 1) 0 - t.timestamp.getD i 0) / 1000000000)) ∧
        t.rates.2.getD i .nan =
          .fin ((t.el.getD (i + 1) 0 - t.el.getD i 0) /
            ((t.timestamp.getD (i + 1) 0 - t.timestamp.getD i 0) / 1000000000))) ∧
       (t.timestamp.getD (i + 1) 0 = t.timestamp.getD i 0 →
        (t.rates.1.getD i .nan).isFinite = false ∧
        (t.rates.2.getD i .nan).isFinite = false))) ∧
    (∀ a, (∀ x ∈ t.az, x = a) → List.Pairwise (· < ·) t.timestamp →
      ∀ r ∈ t.rates.1, r = .fin 0) := by
  have hlen1 : t.rates.1.length = t.timestamp.length - 1 := by
    show (List.zipWith npDiv (npDiff t.az)
        ((npDiff t.timestamp).map (fun x => x / 1000000000))).length = _
    rw [List.length_zipWith, List.length_map, npDiff_length, npDiff_length, haz,
      Nat.min_self]
  refine ⟨⟨hlen1, ?_⟩, ?_, ?_⟩
  · show (List.zipWith npDiv (npDiff t.el)
        ((npDiff t.timestamp).map (fun x => x / 1000000000))).length = _
    rw [List.length_zipWith, List.length_map, npDiff_length, npDiff_length, hel,
      Nat.min_self]
  · intro i hi
    rw [rates_getD t haz i hi, rates_getD_el t hel i hi]
    set dts := t.timestamp.getD (i + 1) 0 - t.timestamp.getD i 0 with hdts
    constructor
    · intro hne
      have : dts / 1000000000 ≠ 0 := by
        rw [hdts]
        exact div_ne_zero (sub_ne_zero.mpr hne) (by norm_num)
      constructor <;> simp [npDiv, this]
    · intro heq
      have : dts / 1000000000 = 0 := by rw [hdts, heq]; simp
      rw [this]
      constructor <;>
        · unfold npDiv
          split_ifs <;> simp_all [ExtQ.isFinite]
  · intro a ha hpw r hr
    obtain ⟨i, hilen, hig⟩ := List.mem_iff_getElem.mp hr
    have hi : i + 1 < t.timestamp.length := by
      rw [hlen1] at hilen; omega
    have hr2 : t.rates.1.getD i .nan = r := by
      rw [getD_eq_getElem _ i hilen .nan, hig]
    have haz1 : t.az.getD (i + 1) 0 = a := by
      rw [getD_eq_getElem _ (i + 1) (by omega) 0]
      exact ha _ (List.getElem_mem _)
    have haz0 : t.az.getD i 0 = a := by
      rw [getD_eq_getElem _ i (by omega) 0]
      exact ha _ (List.getElem_mem _)
    have hts : t.timestamp.getD i 0 < t.timestamp.getD (i + 1) 0 := by
      rw [getD_eq_getElem _ i (by omega) 0, getD_eq_getElem _ (i + 1) hi 0]
      exact List.pairwise_iff_getElem.mp hpw i (i + 1) (by omega) hi (by omega)
    have hdne : (t.timestamp.getD (i + 1) 0 - t.timestamp.getD i 0) / 1000000000 ≠ 0 :=
      div_ne_zero (sub_ne_zero.mpr (ne_of_gt hts)) (by norm_num)
    rw [← hr2, rates_getD t haz i hi, haz1, haz0, sub_self]
    unfold npDiv
    rw [if_pos hdne, zero_div]

/-- A two-sample track with constant azimuth and distinct timestamps. -/
def c9Track : Track := { timestamp := [0, 2000000000], az := [7, 7], el := [1, 5] }

/-- C9, witness: the rate conclusions instantiated on a concrete
two-sample track. -/
theorem c9_rates_witness :
    (c9Track.rates.1.length = c9Track.timestamp.length - 1 ∧
      c9Track.rates.2.length = c9Track.timestamp.length - 1) ∧
    (∀ i, i + 1 < c9Track.timestamp.length →
      ((c9Track.timestamp.getD (i + 1) 0 ≠ c9Track.timestamp.getD i 0 →
        c9Track.rates.1.getD i .nan =
          .fin ((c9Track.az.getD (i + 1) 0 - c9Track.az.getD i 0) /
            ((c9Track.timestamp.getD (i + 1) 0 - c9Track.timestamp.getD i 0) /
              1000000000)) ∧
        c9Track.rates.2.getD i .nan =
          .fin ((c9Track.el.getD (i + 1) 0 - c9Track.el.getD i 0) /
            ((c9Track.timestamp.getD (i + 1) 0 - c9Track.timestamp.getD i 0) /
              1000000000))) ∧
       (c9Track.timestamp.getD (i + 1) 0 = c9Track.timestamp.getD i 0 →
        (c9Track.rates.1.getD i .nan).isFinite = false ∧
        (c9Track.rates.2.getD i .nan).isFinite = false))) ∧
    (∀ a, (∀ x ∈ c9Track.az, x = a) → List.Pairwise (· < ·) c9Track.timestamp →
      ∀ r ∈ c9Track.rates.1, r = .fin 0) :=
  c9_rates c9Track (by decide) (by decide)

/-! Claim C3 — the configured time grids. -/

theorem getD_range (n i : ℕ) (h : i < n) (d : ℕ) : (List.range n).getD i d = i := by
  rw [getD_eq_getElem _ i (by simpa using h) d]
  simp

theorem pyInt_intCast (n : ℤ) : pyInt (n : ℚ) = n := by
  unfold pyInt
  split_ifs <;> simp

theorem arangeQ_length (stop step : ℚ) :
    (arangeQ stop step).length = Int.toNat ⌈stop / step⌉ := by
  simp [arangeQ]

theorem arangeZ_length (stop step : ℤ) :
    (arangeZ stop step).length = Int.toNat ⌈(stop : ℚ) / (step : ℚ)⌉ := by
  simp [arangeZ]

theorem arangeQ_getD (stop step : ℚ) (i : ℕ) (h : i < (arangeQ stop step).length) :
    (arangeQ stop step).getD i 0 = (i : ℚ) * step := by
  unfold arangeQ at h ⊢
  rw [getD_map _ _ i (by simpa using h) 0, getD_range _ i (by simpa using h) 0]

theorem arangeZ_getD (stop step : ℤ) (i : ℕ) (h : i < (arangeZ stop step).length) :
    (arangeZ stop step).getD i 0 = (i : ℤ) * step := by
  unfold arangeZ at h ⊢
  rw [getD_map _ _ i (by simpa using h) 0, getD_range _ i (by simpa using h) 0]

theorem track_Time_length (c : TrajectoryConfig) :
    (track_Time c).length = Int.toNat ⌈c.durationSec / c.tstep⌉ := by
  simp [track_Time, arangeQ]

theorem track_tsns_length (c : TrajectoryConfig) :
    (track_tsns c).length =
      Int.toNat ⌈((pyInt (c.durationSec * 10 ^ 9) : ℤ) : ℚ) /
        ((pyInt (c.tstep * 10 ^ 9) : ℤ) : ℚ)⌉ := by
  simp [track_tsns, arangeZ]

theorem track_Time_getD (c : TrajectoryConfig) (i : ℕ) (h : i < (track_Time c).length) :
    (track_Time c).getD i 0 = c.startTai + (i : ℚ) * c.tstep := by
  unfold track_Time at h ⊢
  rw [getD_map _ _ i (by simpa using h) 0, arangeQ_getD _ _ i (by simpa using h)]

theorem track_tsns_getD (c : TrajectoryConfig) (i : ℕ) (h : i < (track_tsns c).length) :
    (track_tsns c).getD i 0 =
      pyInt (c.startTai * 10 ^ 9) + (i : ℤ) * pyInt (c.tstep * 10 ^ 9) := by
  unfold track_tsns at h ⊢
  rw [getD_map _ _ i (by simpa using h) 0, arangeZ_getD _ _ i (by simpa using h)]

theorem pairwise_lt_range_map {α : Type} [Preorder α] (n : ℕ) (f : ℕ → α)
    (hf : ∀ i j, i < j → f i < f j) :
    List.Pairwise (· < ·) ((List.range n).map f) :=
  List.Pairwise.map f (fun a b hab => hf a b hab) (List.pairwise_lt_range n)

theorem tstep_pos_of_ns (c : TrajectoryConfig) (tns : ℤ)
    (ht : c.tstep * 10 ^ 9 = (tns : ℚ)) (htpos : 0 < tns) : 0 < c.tstep := by
  have htnsQ : (0 : ℚ) < (tns : ℚ) := by exact_mod_cast htpos
  have htq : c.tstep = (tns : ℚ) / 10 ^ 9 := by
    rw [eq_div_iff (by norm_num : (10 : ℚ) ^ 9 ≠ 0)]
    exact ht
  rw [htq]
  positivity

theorem grid_lengths_eq (c : TrajectoryConfig) (Dns tns : ℤ)
    (hD : c.durationSec * 10 ^ 9 = (Dns : ℚ)) (ht : c.tstep * 10 ^ 9 = (tns : ℚ))
    (htpos : 0 < tns) :
    (track_Time c).length = (track_tsns c).length := by
  have htnsQ : (0 : ℚ) < (tns : ℚ) := by exact_mod_cast htpos
  have ht0 : 0 < c.tstep := tstep_pos_of_ns c tns ht htpos
  have hDt : c.durationSec / c.tstep = (Dns : ℚ) / (tns : ℚ) := by
    rw [div_eq_div_iff (ne_of_gt ht0) (ne_of_gt htnsQ)]
    calc c.durationSec * tns = c.durationSec * (c.tstep * 10 ^ 9) := by rw [ht]
      _ = c.durationSec * 10 ^ 9 * c.tstep := by ring
      _ = Dns * c.tstep := by rw [hD]
  rw [track_Time_length, track_tsns_length, hD, ht, pyInt_intCast, pyInt_intCast, hDt]

theorem track_Time_pairwise (c : TrajectoryConfig) (ht0 : 0 < c.tstep) :
    List.Pairwise (· < ·) (track_Time c) := by
  rw [track_Time, arangeQ, List.map_map]
  exact pairwise_lt_range_map _ _ (fun i j hij => by
    show c.startTai + (i : ℚ) * c.tstep < c.startTai + (j : ℚ) * c.tstep
    have : (i : ℚ) < (j : ℚ) := by exact_mod_cast hij
    nlinarith)

theorem track_tsns_pairwise (c : TrajectoryConfig) (tns : ℤ)
    (ht : c.tstep * 10 ^ 9 = (tns : ℚ)) (htpos : 0 < tns) :
    List.Pairwise (· < ·) (track_tsns c) := by
  have hpyt : pyInt (c.tstep * 10 ^ 9) = tns := by rw [ht, pyInt_intCast]
  rw [track_tsns, arangeZ, List.map_map]
  exact pairwise_lt_range_map _ _ (fun i j hij => by
    show pyInt (c.startTai * 10 ^ 9) + (i : ℤ) * pyInt (c.tstep * 10 ^ 9) <
      pyInt (c.startTai * 10 ^ 9) + (j : ℤ) * pyInt (c.tstep * 10 ^ 9)
    have hij2 : (i : ℤ) < (j : ℤ) := by exact_mod_cast hij
    nlinarith [hpyt])

theorem gridTsOf_pairwise (c : TrajectoryConfig) (tns : ℤ)
    (ht : c.tstep * 10 ^ 9 = (tns : ℚ)) (htpos : 0 < tns) :
    List.Pairwise (· < ·) (gridTsOf c) := by
  rw [gridTsOf]
  exact List.Pairwise.map _ (fun a b hab => by exact_mod_cast hab)
    (track_tsns_pairwise c tns ht htpos)

/-- The counterexample configuration: duration 10 s (1/6 minute), step 3 s. -/
def c3CxCfg : TrajectoryConfig := ⟨0, 1 / 6, 3, 30⟩

/-- C3: counterexample to the claim as stated.  With a 10-second duration
and a 3-second step the grid holds ⌈10/3⌉ = 4 instants, which differs from
duration/tstep = 10/3: the number of instants is the ceiling of that
ratio, not the ratio itself, whenever tstep does not divide the
duration. -/
theorem c3_count_counterexample :
    (track_Time c3CxCfg).length = 4 ∧
    ((track_Time c3CxCfg).length : ℚ) ≠ c3CxCfg.durationSec / c3CxCfg.tstep := by
  have hceil : ⌈c3CxCfg.durationSec / c3CxCfg.tstep⌉ = 4 := by
    show ⌈(1 / 6 * 60 : ℚ) / 3⌉ = 4
    rw [Int.ceil_eq_iff] <;> norm_num
  have hlen : (track_Time c3CxCfg).length = 4 := by
    rw [track_Time_length, hceil]
    rfl
  refine ⟨hlen, ?_⟩
  rw [hlen]
  show ((4 : ℕ) : ℚ) ≠ (1 / 6 * 60 : ℚ) / 3
  norm_num

/-- C3 amended: when tstep and the duration are exact whole numbers of
nanoseconds (so that the float grid and the integer-nanosecond grid carry
the same information), the two grids have equal length, both are strictly
increasing, consecutive instants are spaced by tstep (tns nanoseconds on
the integer grid), and the number of instants is ⌈duration/tstep⌉ — which
equals duration/tstep exactly when tstep divides the duration. -/
theorem c3_grid_amended (c : TrajectoryConfig) (Dns tns : ℤ)
    (hD : c.durationSec * 10 ^ 9 = (Dns : ℚ)) (ht : c.tstep * 10 ^ 9 = (tns : ℚ))
    (hDpos : 0 < Dns) (htpos : 0 < tns) :
    (track_Time c).length = (track_tsns c).length ∧
    (track_Time c).length = Int.toNat ⌈c.durationSec / c.tstep⌉ ∧
    (tns ∣ Dns → ((track_Time c).length : ℚ) = c.durationSec / c.tstep) ∧
    List.Pairwise (· < ·) (track_Time c) ∧
    List.Pairwise (· < ·) (track_tsns c) ∧
    (∀ i, i + 1 < (track_Time c).length →
      (track_Time c).getD (i + 1) 0 - (track_Time c).getD i 0 = c.tstep ∧
      (track_tsns c).getD (i + 1) 0 - (track_tsns c).getD i 0 = tns) := by
  have htnsQ : (0 : ℚ) < (tns : ℚ) := by exact_mod_cast htpos
  have ht0 : 0 < c.tstep := tstep_pos_of_ns c tns ht htpos
  have hDt : c.durationSec / c.tstep = (Dns : ℚ) / (tns : ℚ) := by
    rw [div_eq_div_iff (ne_of_gt ht0) (ne_of_gt htnsQ)]
    calc c.durationSec * tns = c.durationSec * (c.tstep * 10 ^ 9) := by rw [ht]
      _ = c.durationSec * 10 ^ 9 * c.tstep := by ring
      _ = Dns * c.tstep := by rw [hD]
  have hpyt : pyInt (c.tstep * 10 ^ 9) = tns := by rw [ht, pyInt_intCast]
  have hlen1 : (track_Time c).length = Int.toNat ⌈c.durationSec / c.tstep⌉ :=
    track_Time_length c
  have hleneq : (track_Time c).length = (track_tsns c).length :=
    grid_lengths_eq c Dns tns hD ht htpos
  refine ⟨hleneq, hlen1, ?_, track_Time_pairwise c ht0,
    track_tsns_pairwise c tns ht htpos, ?_⟩
  · rintro ⟨k, hk⟩
    have hk0 : 0 < k := by nlinarith
    have hkQ : (Dns : ℚ) / (tns : ℚ) = (k : ℚ) := by
      rw [hk]
      push_cast
      field_simp
    rw [hlen1, hDt, hkQ, Int.ceil_intCast]
    exact_mod_cast Int.toNat_of_nonneg (le_of_lt hk0)
  · intro i hi
    have hi2 : i + 1 < (track_tsns c).length := by rw [← hleneq]; exact hi
    constructor
    · rw [track_Time_getD c (i + 1) hi, track_Time_getD c i (by omega)]
      push_cast
      ring
    · rw [track_tsns_getD c (i + 1) hi2, track_tsns_getD c i (by omega), hpyt]
      push_cast
      ring

/-- The witness configuration: start 5 s, duration 10 s, step 3 s. -/
def c3Cfg : TrajectoryConfig := ⟨5, 1 / 6, 3, 30⟩

/-- C3 amended, witness: the grid conclusions instantiated at a concrete
configuration with nanosecond-exact duration and step. -/
theorem c3_grid_amended_witness :
    (track_Time c3Cfg).length = (track_tsns c3Cfg).length ∧
    (track_Time c3Cfg).length = Int.toNat ⌈c3Cfg.durationSec / c3Cfg.tstep⌉ ∧
    ((3000000000 : ℤ) ∣ 10000000000 →
      ((track_Time c3Cfg).length : ℚ) = c3Cfg.durationSec / c3Cfg.tstep) ∧
    List.Pairwise (· < ·) (track_Time c3Cfg) ∧
    List.Pairwise (· < ·) (track_tsns c3Cfg) ∧
    (∀ i, i + 1 < (track_Time c3Cfg).length →
      (track_Time c3Cfg).getD (i + 1) 0 - (track_Time c3Cfg).getD i 0 = c3Cfg.tstep ∧
      (track_tsns c3Cfg).getD (i + 1) 0 - (track_tsns c3Cfg).getD i 0 = 3000000000) :=
  c3_grid_amended c3Cfg 10000000000 3000000000
    (by norm_num [TrajectoryConfig.durationSec, c3Cfg])
    (by norm_num [c3Cfg]) (by norm_num) (by norm_num)

/-! Claim C8 — the galactic sweep's track shape. -/

theorem lonGrid_length : lonGrid.length = 3599 := by
  have hceil : ⌈(3599 / 10 : ℚ) / (1 / 10)⌉ = 3599 := by norm_num
  rw [lonGrid, arangeQ_length, hceil]
  rfl

theorem lonGrid_lt_360 (x : ℚ) (hx : x ∈ lonGrid) : x < 360 := by
  unfold lonGrid arangeQ at hx
  simp only [List.mem_map, List.mem_range] at hx
  obtain ⟨i, hi, rfl⟩ := hx
  have h3599 : Int.toNat ⌈(3599 / 10 : ℚ) / (1 / 10)⌉ = 3599 := by
    have : ⌈(3599 / 10 : ℚ) / (1 / 10)⌉ = 3599 := by norm_num
    rw [this]
    rfl
  rw [h3599] at hi
  have : (i : ℚ) < 3599 := by exact_mod_cast hi
  nlinarith

/-- C8: for any coordinate transform with at least one longitude sample
above the horizon at the start instant, the galactic sweep produces one
az/el/ra/dec/l/b sample per grid instant (lengths all equal the grid
length, with the full grid's timestamp/obstime), the first sample's
elevation exceeds the horizon by construction (the first above-horizon
longitude, evaluated at the start instant, is the first grid instant's
sample), and every later sample is the transform's value at its own
instant with no horizon re-filtering — it is kept whatever its elevation
is. -/
theorem c8_galactic_track (c : TrajectoryConfig) (azelOf : ℚ → ℚ → AzEl)
    (radecOf : ℚ → RaDec) (b rate : ℚ)
    (habove : lonGrid.filter
      (fun gl => decide (c.el_horizon < (azelOf c.startTai gl).el)) ≠ [])
    (hgrid : track_Time c ≠ []) :
    (galacticGen c azelOf radecOf b rate).valid = true ∧
    ∃ tr, (galacticGen c azelOf radecOf b rate).track = some tr ∧
      tr.timestamp = gridTsOf c ∧
      tr.obstime = track_Time c ∧
      tr.az.length = (track_Time c).length ∧
      tr.el.length = (track_Time c).length ∧
      tr.ra.length = (track_Time c).length ∧
      tr.dec.length = (track_Time c).length ∧
      tr.l.length = (track_Time c).length ∧
      tr.b.length = (track_Time c).length ∧
      c.el_horizon < tr.el.getD 0 0 ∧
      (∀ i, i < (track_Time c).length →
        tr.el.getD i 0 =
          (azelOf ((track_Time c).getD i 0)
            (galacticL (lonGrid.filter
              (fun gl => decide (c.el_horizon < (azelOf c.startTai gl).el))).headI
              (rate * c.tstep) i)).el) ∧
      (∀ i, i < (track_Time c).length →
        tr.l.getD i 0 =
          galacticL (lonGrid.filter
            (fun gl => decide (c.el_horizon < (azelOf c.startTai gl).el))).headI
            (rate * c.tstep) i) := by
  obtain ⟨l0, rest, hab⟩ := List.exists_cons_of_ne_nil habove
  have hl0f : l0 ∈ lonGrid.filter
      (fun gl => decide (c.el_horizon < (azelOf c.startTai gl).el)) := by
    rw [hab]
    exact List.mem_cons_self l0 rest
  have hl0el : c.el_horizon < (azelOf c.startTai l0).el :=
    of_decide_eq_true (List.mem_filter.mp hl0f).2
  have hheadI : (lonGrid.filter
      (fun gl => decide (c.el_horizon < (azelOf c.startTai gl).el))).headI = l0 := by
    rw [hab]
    rfl
  have hn0 : 0 < (track_Time c).length := List.length_pos.mpr hgrid
  have hT0 : (track_Time c).getD 0 0 = c.startTai := by
    rw [track_Time_getD c 0 hn0]
    norm_num
  have hl0lt : l0 < 360 := lonGrid_lt_360 l0 (List.mem_of_mem_filter hl0f)
  have hgal0 : galacticL l0 (rate * c.tstep) 0 = l0 := by
    simp only [galacticL, Nat.cast_zero, zero_mul, add_zero]
    rw [if_neg (by linarith : ¬ l0 > 360)]
  unfold galacticGen
  rw [hab]
  simp only [List.headI_cons]
  refine ⟨by trivial, ?_⟩
  refine ⟨_, rfl, rfl, rfl, ?_, ?_, ?_, ?_, ?_, ?_, ?_, ?_, ?_⟩
  · simp
  · simp
  · simp
  · simp
  · simp
  · simp
  · rw [getD_map _ _ 0 (by simpa using hn0) 0, getD_range _ 0 (by simpa using hn0),
      hgal0, hT0]
    exact hl0el
  · intro i hi
    rw [getD_map _ _ i (by simpa using hi) 0, getD_range _ i (by simpa using hi)]
  · intro i hi
    rw [getD_map _ _ i (by simpa using hi) 0, getD_range _ i (by simpa using hi)]

/-- The witness configuration for the sweep: start 0, duration 3 s, step
1 s, horizon 30°. -/
def c8Cfg : TrajectoryConfig := ⟨0, 1 / 20, 1, 30⟩

/-- A concrete stand-in for the astropy AltAz chain: azimuth equals the
longitude, elevation starts at 31° and sinks by 1° per second — above the
30° horizon at the start instant, below it from the second instant on. -/
def c8AzEl : ℚ → ℚ → AzEl := fun t gl => ⟨gl, 31 - t⟩

/-- A concrete stand-in for the galactic → ICRS transform. -/
def c8RaDec : ℚ → RaDec := fun gl => ⟨gl + 1, gl + 2⟩

theorem c8Cfg_time_length : (track_Time c8Cfg).length = 3 := by
  have hceil : ⌈c8Cfg.durationSec / c8Cfg.tstep⌉ = 3 := by
    show ⌈(1 / 20 * 60 : ℚ) / 1⌉ = 3
    norm_num
  rw [track_Time_length, hceil]
  rfl

/-- C8, witness: the sweep-track conclusions instantiated at the concrete
transform, whose elevation drops below the horizon after the first grid
instant yet every instant keeps its sample. -/
theorem c8_galactic_track_witness :
    (galacticGen c8Cfg c8AzEl c8RaDec 0 10).valid = true ∧
    ∃ tr, (galacticGen c8Cfg c8AzEl c8RaDec 0 10).track = some tr ∧
      tr.timestamp = gridTsOf c8Cfg ∧
      tr.obstime = track_Time c8Cfg ∧
      tr.az.length = (track_Time c8Cfg).length ∧
      tr.el.length = (track_Time c8Cfg).length ∧
      tr.ra.length = (track_Time c8Cfg).length ∧
      tr.dec.length = (track_Time c8Cfg).length ∧
      tr.l.length = (track_Time c8Cfg).length ∧
      tr.b.length = (track_Time c8Cfg).length ∧
      c8Cfg.el_horizon < tr.el.getD 0 0 ∧
      (∀ i, i < (track_Time c8Cfg).length →
        tr.el.getD i 0 =
          (c8AzEl ((track_Time c8Cfg).getD i 0)
            (galacticL (lonGrid.filter
              (fun gl => decide (c8Cfg.el_horizon < (c8AzEl c8Cfg.startTai gl).el))).headI
              (10 * c8Cfg.tstep) i)).el) ∧
      (∀ i, i < (track_Time c8Cfg).length →
        tr.l.getD i 0 =
          galacticL (lonGrid.filter
            (fun gl => decide (c8Cfg.el_horizon < (c8AzEl c8Cfg.startTai gl).el))).headI
            (10 * c8Cfg.tstep) i) :=
  c8_galactic_track c8Cfg c8AzEl c8RaDec 0 10
    (by
      rw [List.filter_eq_self.mpr]
      · intro h
        have := lonGrid_length
        rw [h] at this
        simp at this
      · intro a _
        apply decide_eq_true
        show (30 : ℚ) < 31 - 0
        norm_num)
    (by
      intro h
      have := c8Cfg_time_length
      rw [h] at this
      simp at this)

/-! Claim C6 — failure behaviour of the two generators. -/

/-- C6 amended: both failure conditions mark the trajectory invalid, but
the two generators differ in what they leave behind.  The galactic sweep
checks coverage before creating any track, so an all-below-horizon start
leaves no track at all.  `from_file` creates the output track — already
populated with the full grid's timestamp and obstime — before the overlap
check, so a no-overlap failure leaves that grid-initialised track (with
empty az/el/ir) attached to the invalid trajectory. -/
theorem c6_failure_amended (c : TrajectoryConfig) (azelOf : ℚ → ℚ → AzEl)
    (radecOf : ℚ → RaDec) (b rate : ℚ) (records : List FileRecord)
    (hgrid : track_Time c ≠ []) :
    (lonGrid.filter (fun gl => decide (c.el_horizon < (azelOf c.startTai gl).el)) = [] →
      galacticGen c azelOf radecOf b rate = { valid := false, track := none }) ∧
    ((∀ r ∈ records, ¬((track_Time c).headI ≤ r.t ∧ r.t ≤ (track_Time c).getLastD 0)) →
      fromFileGen c records =
        some { valid := false,
               track := some { timestamp := gridTsOf c, obstime := track_Time c } }) := by
  constructor
  · intro hfil
    unfold galacticGen
    rw [hfil]
  · intro hov
    have hany : records.any (fun r => decide ((track_Time c).headI ≤ r.t) &&
        decide (r.t ≤ (track_Time c).getLastD 0)) = false := by
      apply List.any_eq_false.mpr
      intro r hr
      have h2 := hov r hr
      cases h3 : (decide ((track_Time c).headI ≤ r.t) &&
          decide (r.t ≤ (track_Time c).getLastD 0)) with
      | false => simp
      | true => exact absurd (by simpa using h3) h2
    unfold fromFileGen
    rw [if_neg hgrid]
    simp only [hany]
    simp

/-- The C6 configuration: start 0, duration 2 s, step 1 s. -/
def c6Cfg : TrajectoryConfig := ⟨0, 1 / 30, 1, 30⟩

/-- One input record 100 s after the grid's end: no overlap. -/
def c6Records : List FileRecord := [⟨100, 1, 2, 3⟩]

/-- A transform that never clears the horizon. -/
def c6AzEl : ℚ → ℚ → AzEl := fun _ _ => ⟨0, 0⟩

/-- A concrete galactic → ICRS stand-in for the C6 sweep. -/
def c6RaDec : ℚ → RaDec := fun gl => ⟨gl, gl⟩

theorem c6_time_eval : track_Time c6Cfg = [0, 1] := by
  have hceil : Int.toNat ⌈c6Cfg.durationSec / c6Cfg.tstep⌉ = 2 := by
    have : ⌈c6Cfg.durationSec / c6Cfg.tstep⌉ = 2 := by
      show ⌈(1 / 30 * 60 : ℚ) / 1⌉ = 2
      norm_num
    rw [this]
    rfl
  rw [track_Time, arangeQ, hceil]
  simp only [List.range_succ, List.range_zero, List.map_append, List.map_cons, List.map_nil,
    List.nil_append, List.cons_append, List.map_map]
  norm_num [c6Cfg]

theorem c6_tsns_eval : track_tsns c6Cfg = [0, 1000000000] := by
  have hstop : pyInt (c6Cfg.durationSec * 10 ^ 9) = 2000000000 := by
    show pyInt (1 / 30 * 60 * 10 ^ 9) = 2000000000
    norm_num [pyInt]
  have hstep : pyInt (c6Cfg.tstep * 10 ^ 9) = 1000000000 := by
    show pyInt (1 * 10 ^ 9) = 1000000000
    norm_num [pyInt]
  have hstart : pyInt (c6Cfg.startTai * 10 ^ 9) = 0 := by
    show pyInt (0 * 10 ^ 9) = 0
    norm_num [pyInt]
  have hceil : Int.toNat ⌈((2000000000 : ℤ) : ℚ) / ((1000000000 : ℤ) : ℚ)⌉ = 2 := by
    have : ⌈((2000000000 : ℤ) : ℚ) / ((1000000000 : ℤ) : ℚ)⌉ = 2 := by norm_num
    rw [this]
    rfl
  rw [track_tsns, hstart, hstop, hstep, arangeZ, hceil]
  simp only [List.range_succ, List.range_zero, List.map_append, List.map_cons, List.map_nil,
    List.nil_append, List.cons_append, List.map_map]
  norm_num

theorem c6_grid_eval : gridTsOf c6Cfg = [0, 1000000000] := by
  rw [gridTsOf, c6_tsns_eval]
  norm_num

/-- C6: counterexample to the claim as stated.  A from-file generation
whose single input record lies wholly outside the grid span fails (valid
is False), yet a partially populated output track remains: its timestamp
and obstime sequences carry the full grid. -/
theorem c6_no_overlap_counterexample :
    fromFileGen c6Cfg c6Records =
      some { valid := false,
             track := some { timestamp := [0, 1000000000], obstime := [0, 1] } } ∧
    ([(0 : ℚ), 1000000000] : List ℚ) ≠ [] := by
  refine ⟨?_, by simp⟩
  have hany : c6Records.any (fun r => decide ((track_Time c6Cfg).headI ≤ r.t) &&
      decide (r.t ≤ (track_Time c6Cfg).getLastD 0)) = false := by
    rw [c6_time_eval]
    show ((decide ((0 : ℚ) ≤ 100) && decide ((100 : ℚ) ≤ 1)) || false) = false
    rw [decide_eq_false (by norm_num : ¬ (100 : ℚ) ≤ 1), Bool.and_false, Bool.or_false]
  unfold fromFileGen
  rw [if_neg (by rw [c6_time_eval]; simp)]
  simp only [hany]
  simp only [Bool.false_eq_true, if_false, if_true]
  rw [c6_grid_eval, c6_time_eval]

/-- C6 amended, witness: the two failure conclusions instantiated — the
sweep leaves no track; the file path leaves the grid-populated track. -/
theorem c6_failure_amended_witness :
    galacticGen c6Cfg c6AzEl c6RaDec 0 1 = { valid := false, track := none } ∧
    fromFileGen c6Cfg c6Records =
      some { valid := false,
             track := some { timestamp := gridTsOf c6Cfg, obstime := track_Time c6Cfg } } := by
  have hgrid : track_Time c6Cfg ≠ [] := by
    rw [c6_time_eval]
    simp
  refine ⟨(c6_failure_amended c6Cfg c6AzEl c6RaDec 0 1 c6Records hgrid).1 ?_,
    (c6_failure_amended c6Cfg c6AzEl c6RaDec 0 1 c6Records hgrid).2 ?_⟩
  · apply List.filter_eq_nil_iff.mpr
    intro a _
    simp only [c6AzEl, c6Cfg]
    norm_num
  · intro r hr
    have : r = (⟨100, 1, 2, 3⟩ : FileRecord) := by
      simpa [c6Records] using hr
    subst this
    rw [c6_time_eval]
    intro hcon
    have : (100 : ℚ) ≤ 1 := hcon.2
    norm_num at this

/-! Claims C4 and C5 — interpolation and kept-index machinery. -/

theorem mergeSort_of_pairwise_le (kn : List (ℚ × ℚ))
    (h : List.Pairwise (fun a b : ℚ × ℚ => a.1 ≤ b.1) kn) :
    kn.mergeSort (fun a b => decide (a.1 ≤ b.1)) = kn :=
  List.mergeSort_of_sorted (h.imp (fun hab => decide_eq_true hab))

theorem key_le_getLast {α : Type} (f : α → ℚ) :
    ∀ (l : List α) (h : l ≠ []) (_ : List.Pairwise (fun a b => f a < f b) l)
      (a : α), a ∈ l → f a ≤ f (l.getLast h)
  | [], h, _, _, _ => absurd rfl h
  | [x], _, _, a, ha => by
    have : a = x := by simpa using ha
    subst this
    simp
  | x :: y :: rest, _, hpw, a, ha => by
    rw [List.getLast_cons (List.cons_ne_nil y rest)]
    rcases List.mem_cons.mp ha with rfl | ha2
    · exact le_of_lt ((List.pairwise_cons.mp hpw).1 _ (List.getLast_mem _))
    · exact key_le_getLast f (y :: rest) (List.cons_ne_nil y rest)
        (List.pairwise_cons.mp hpw).2 a ha2

theorem headI_key_le {α : Type} [Inhabited α] (f : α → ℚ) :
    ∀ (l : List α) (_ : List.Pairwise (fun a b => f a < f b) l)
      (a : α), a ∈ l → f l.headI ≤ f a
  | [], _, a, ha => absurd ha (List.not_mem_nil a)
  | x :: rest, hpw, a, ha => by
    rcases List.mem_cons.mp ha with rfl | ha2
    · simp
    · exact le_of_lt ((List.pairwise_cons.mp hpw).1 a ha2)

theorem interpCore_knot :
    ∀ (kn : List (ℚ × ℚ)) (_ : List.Pairwise (fun a b : ℚ × ℚ => a.1 < b.1) kn)
      (k : ℚ × ℚ), k ∈ kn → interpCore kn k.1 = k.2
  | [], _, k, hk => absurd hk (List.not_mem_nil k)
  | [p], _, k, hk => by
    have : k = p := by simpa using hk
    subst this
    rfl
  | p :: q :: rest, hpw, k, hk => by
    have hpq : p.1 < q.1 := (List.pairwise_cons.mp hpw).1 q (List.mem_cons_self q rest)
    rcases List.mem_cons.mp hk with rfl | hk2
    · show interpCore (k :: q :: rest) k.1 = k.2
      unfold interpCore
      rw [if_pos (le_of_lt hpq)]
      unfold linSeg
      rw [sub_self, mul_zero, zero_div, add_zero]
    · have hq_le : q.1 ≤ k.1 :=
        headI_key_le (fun pr : ℚ × ℚ => pr.1) (q :: rest)
          (List.pairwise_cons.mp hpw).2 k hk2
      by_cases hxq : k.1 ≤ q.1
      · have heq : k.1 = q.1 := le_antisymm hxq hq_le
        have hkq : k = q := by
          rcases List.mem_cons.mp hk2 with rfl | hk3
          · rfl
          · exact absurd heq
              (ne_of_gt ((List.pairwise_cons.mp (List.pairwise_cons.mp hpw).2).1 k hk3))
        subst hkq
        show interpCore (p :: k :: rest) k.1 = k.2
        unfold interpCore
        rw [if_pos hxq]
        unfold linSeg
        have hne : k.1 - p.1 ≠ 0 := sub_ne_zero.mpr (ne_of_gt hpq)
        rw [mul_div_assoc, div_self hne, mul_one]
        ring
      · show interpCore (p :: q :: rest) k.1 = k.2
        unfold interpCore
        rw [if_neg hxq]
        exact interpCore_knot (q :: rest) (List.pairwise_cons.mp hpw).2 k hk2

theorem interp1d_knot (kn : List (ℚ × ℚ))
    (hpw : List.Pairwise (fun a b : ℚ × ℚ => a.1 < b.1) kn)
    (k : ℚ × ℚ) (hk : k ∈ kn) : interp1d kn k.1 = k.2 := by
  obtain ⟨p, rest, hcons⟩ := List.exists_cons_of_ne_nil (List.ne_nil_of_mem hk)
  subst hcons
  unfold interp1d
  rw [mergeSort_of_pairwise_le _ (hpw.imp le_of_lt)]
  show (if k.1 < p.1 ∨ ((p :: rest).getLast (List.cons_ne_nil p rest)).1 < k.1 then 0
    else interpCore (p :: rest) k.1) = k.2
  rw [if_neg ?_]
  · exact interpCore_knot (p :: rest) hpw k hk
  · rintro (h1 | h2)
    · exact absurd h1 (not_lt.mpr (headI_key_le (fun pr : ℚ × ℚ => pr.1) _ hpw k hk))
    · exact absurd h2 (not_lt.mpr (key_le_getLast (fun pr : ℚ × ℚ => pr.1) _
        (List.cons_ne_nil p rest) hpw k hk))

theorem interp1d_out_of_domain (kn : List (ℚ × ℚ)) (hkn : kn ≠ [])
    (hpw : List.Pairwise (fun a b : ℚ × ℚ => a.1 ≤ b.1) kn)
    (x : ℚ) (hx : x < kn.headI.1 ∨ (kn.getLastD (0, 0)).1 < x) :
    interp1d kn x = 0 := by
  obtain ⟨p, rest, hcons⟩ := List.exists_cons_of_ne_nil hkn
  subst hcons
  have hlast : (p :: rest).getLastD (0, 0) = (p :: rest).getLast (List.cons_ne_nil p rest) := by
    rw [List.getLastD_eq_getLast?, List.getLast?_eq_getLast _ (List.cons_ne_nil p rest)]
    rfl
  unfold interp1d
  rw [mergeSort_of_pairwise_le _ hpw]
  show (if x < p.1 ∨ ((p :: rest).getLast (List.cons_ne_nil p rest)).1 < x then 0
    else interpCore (p :: rest) x) = 0
  rw [if_pos]
  rcases hx with h1 | h2
  · exact Or.inl h1
  · exact Or.inr (by rw [← hlast]; exact h2)

theorem zip_getLastD {α β : Type} :
    ∀ (l1 : List α) (l2 : List β) (d1 : α) (d2 : β), l1.length = l2.length →
      (l1.zip l2).getLastD (d1, d2) = (l1.getLastD d1, l2.getLastD d2)
  | [], [], _, _, _ => rfl
  | [], _ :: _, _, _, h => by simp at h
  | _ :: _, [], _, _, h => by simp at h
  | a :: l1, b :: l2, d1, d2, h => by
    rw [List.zip_cons_cons, List.getLastD_cons, List.getLastD_cons, List.getLastD_cons,
      zip_getLastD l1 l2 a b (by simpa using h)]

theorem range_filter_map_getD {α : Type} (p : α → Bool) (d : α) (xs : List α) :
    ((List.range xs.length).filter (fun i => p (xs.getD i d))).map (fun i => xs.getD i d) =
      xs.filter p := by
  induction xs with
  | nil => rfl
  | cons a xs ih =>
    rw [List.length_cons, List.range_succ_eq_map]
    have hcomp : ((fun i => p ((a :: xs).getD i d)) ∘ Nat.succ) =
        (fun i => p (xs.getD i d)) := by
      funext i
      rfl
    have hcomp2 : ((fun i => (a :: xs).getD i d) ∘ Nat.succ) =
        (fun i => xs.getD i d) := by
      funext i
      rfl
    by_cases hpa : p a
    · rw [List.filter_cons_of_pos (by simpa using hpa), List.map_cons,
        List.filter_cons_of_pos hpa, List.filter_map, List.map_map, hcomp, hcomp2, ih]
      rfl
    · rw [List.filter_cons_of_neg (by simpa using hpa),
        List.filter_cons_of_neg hpa, List.filter_map, List.map_map, hcomp, hcomp2, ih]

theorem range_filter_map_getD_two {α β : Type} (p : β → Bool) (d : α) (d2 : β) :
    ∀ (xs : List α) (ys : List β), xs.length = ys.length →
      ((List.range ys.length).filter (fun i => p (ys.getD i d2))).map
          (fun i => xs.getD i d) =
        ((xs.zip ys).filter (fun pr => p pr.2)).map Prod.fst
  | [], [], _ => rfl
  | [], _ :: _, h => by simp at h
  | _ :: _, [], h => by simp at h
  | a :: xs, b :: ys, h => by
    rw [List.length_cons, List.range_succ_eq_map]
    have hcomp : ((fun i => p ((b :: ys).getD i d2)) ∘ Nat.succ) =
        (fun i => p (ys.getD i d2)) := by
      funext i
      rfl
    have hcomp2 : ((fun i => (a :: xs).getD i d) ∘ Nat.succ) =
        (fun i => xs.getD i d) := by
      funext i
      rfl
    have htl := range_filter_map_getD_two p d d2 xs ys (by simpa using h)
    show (List.filter (fun i => p ((b :: ys).getD i d2))
        (0 :: (List.range ys.length).map Nat.succ)).map (fun i => (a :: xs).getD i d) =
      (((a, b) :: xs.zip ys).filter (fun pr => p pr.2)).map Prod.fst
    by_cases hpb : p b
    · rw [List.filter_cons_of_pos (by simpa using hpb), List.map_cons,
        List.filter_cons_of_pos (by simpa using hpb), List.filter_map, List.map_map,
        hcomp, hcomp2, htl]
      rfl
    · rw [List.filter_cons_of_neg (by simpa using hpb),
        List.filter_cons_of_neg (by simpa using hpb), List.filter_map, List.map_map,
        hcomp, hcomp2, htl]

theorem range_getD_map_self {α : Type} (d : α) (xs : List α) :
    (List.range xs.length).map (fun i => xs.getD i d) = xs := by
  apply List.ext_getElem
  · simp
  · intro i h1 h2
    rw [List.getElem_map, List.getElem_range, getD_eq_getElem _ i h2 d]

theorem zip_headI {α β : Type} [Inhabited α] [Inhabited β] :
    ∀ (l1 : List α) (l2 : List β), l1 ≠ [] → l2 ≠ [] →
      (l1.zip l2).headI = (l1.headI, l2.headI)
  | [], _, h, _ => absurd rfl h
  | _ :: _, [], _, h => absurd rfl h
  | _ :: _, _ :: _, _, _ => by rw [List.zip_cons_cons]; rfl

theorem fromFileGen_happy (c : TrajectoryConfig) (records : List FileRecord)
    (hgrid : track_Time c ≠ [])
    (h2 : 2 ≤ records.length)
    (hov : ∃ r ∈ records, (track_Time c).headI ≤ r.t ∧ r.t ≤ (track_Time c).getLastD 0) :
    fromFileGen c records = some { valid := true, track := some (resampledTrack c records) } := by
  have hany : (records.any fun r => decide ((track_Time c).headI ≤ r.t) &&
      decide (r.t ≤ (track_Time c).getLastD 0)) = true := by
    obtain ⟨r, hr, ha, hb⟩ := hov
    exact List.any_eq_true.mpr ⟨r, hr, by rw [decide_eq_true ha, decide_eq_true hb]; rfl⟩
  unfold fromFileGen
  rw [if_neg hgrid]
  simp only [hany, Bool.true_eq_false, if_false]
  rw [if_neg (by omega)]

/-- C4: with at least two input records with strictly increasing integer
timestamps, a nonempty grid of consistent lengths and an overlapping
input, the resample generator succeeds and produces exactly the claimed
track: interpolated elevation is exactly 0 at any grid timestamp outside
the input's time domain; exactly the grid timestamps with interpolated
elevation strictly above 0 are retained; obstime is filtered by the same
elevation-derived index set; az and ir are the interpolants evaluated at
the kept timestamps; and all kept sequences have equal length. -/
theorem c4_resample_filter (c : TrajectoryConfig) (records : List FileRecord)
    (hpw : List.Pairwise (· < ·) (inputTsOf records))
    (h2 : 2 ≤ records.length)
    (hgrid : track_Time c ≠ [])
    (hlen : (track_Time c).length = (track_tsns c).length)
    (hov : ∃ r ∈ records, (track_Time c).headI ≤ r.t ∧ r.t ≤ (track_Time c).getLastD 0) :
    fromFileGen c records = some { valid := true, track := some (resampledTrack c records) } ∧
    (∀ x ∈ gridTsOf c,
      (x < (inputTsOf records).headI ∨ (inputTsOf records).getLastD 0 < x) →
        elFun records x = 0) ∧
    (resampledTrack c records).timestamp =
      (gridTsOf c).filter (fun x => decide (0 < elFun records x)) ∧
    (resampledTrack c records).el =
      ((gridTsOf c).map (elFun records)).filter (fun e => decide (0 < e)) ∧
    (resampledTrack c records).obstime =
      (((track_Time c).zip (gridTsOf c)).filter
        (fun pr => decide (0 < elFun records pr.2))).map Prod.fst ∧
    (resampledTrack c records).az = ((resampledTrack c records).timestamp).map (azFun records) ∧
    (resampledTrack c records).ir = ((resampledTrack c records).timestamp).map (irFun records) ∧
    (resampledTrack c records).el.length = (resampledTrack c records).timestamp.length ∧
    (resampledTrack c records).obstime.length = (resampledTrack c records).timestamp.length ∧
    (resampledTrack c records).az.length = (resampledTrack c records).timestamp.length ∧
    (resampledTrack c records).ir.length = (resampledTrack c records).timestamp.length := by
  have hlen0 : 0 < records.length := by omega
  have hrne : records ≠ [] := by
    intro h
    rw [h] at hlen0
    simp at hlen0
  have hlents : (inputTsOf records).length = records.length := by
    simp [inputTsOf]
  have hlenel : (records.map FileRecord.el).length = records.length := by simp
  have hknlen : ((inputTsOf records).zip (records.map FileRecord.el)).length =
      records.length := by
    rw [List.length_zip, hlents, hlenel, Nat.min_self]
  have hknne : (inputTsOf records).zip (records.map FileRecord.el) ≠ [] := by
    intro h
    rw [h] at hknlen
    simp at hknlen
    omega
  have htsne : inputTsOf records ≠ [] := by
    intro h
    rw [h] at hlents
    simp at hlents
    omega
  have helne : records.map FileRecord.el ≠ [] := by
    intro h
    rw [h] at hlenel
    simp at hlenel
    omega
  have hmapfst : ((inputTsOf records).zip (records.map FileRecord.el)).map Prod.fst =
      inputTsOf records :=
    List.map_fst_zip _ _ (by rw [hlents, hlenel])
  have hpwkn : List.Pairwise (fun a b : ℚ × ℚ => a.1 < b.1)
      ((inputTsOf records).zip (records.map FileRecord.el)) := by
    rw [← hmapfst] at hpw
    exact List.pairwise_map.mp hpw
  have hvalid : validIdxOf c records = (List.range (gridTsOf c).length).filter
      (fun i => decide (0 < elFun records ((gridTsOf c).getD i 0))) := by
    unfold validIdxOf el0Of
    rw [List.length_map]
    apply List.filter_congr
    intro i hi
    rw [getD_map _ _ i (List.mem_range.mp hi) 0]
  refine ⟨fromFileGen_happy c records hgrid h2 hov, ?_, ?_, ?_, ?_, rfl, rfl, ?_, ?_, ?_, ?_⟩
  · intro x _ hout
    show interp1d ((inputTsOf records).zip (records.map FileRecord.el)) x = 0
    apply interp1d_out_of_domain _ hknne (hpwkn.imp le_of_lt) x
    rw [zip_headI _ _ htsne helne, zip_getLastD _ _ 0 0 (by rw [hlents, hlenel])]
    exact hout
  · show keptTsOf c records = _
    unfold keptTsOf
    rw [hvalid]
    exact range_filter_map_getD (fun x => decide (0 < elFun records x)) 0 (gridTsOf c)
  · show (validIdxOf c records).map (fun i => (el0Of c records).getD i 0) = _
    unfold validIdxOf
    exact range_filter_map_getD (fun e => decide (0 < e)) 0 (el0Of c records)
  · show (validIdxOf c records).map (fun i => (track_Time c).getD i 0) = _
    rw [hvalid]
    exact range_filter_map_getD_two (fun x => decide (0 < elFun records x)) 0 0
      (track_Time c) (gridTsOf c) (by rw [hlen, gridTsOf, List.length_map])
  · simp [resampledTrack, keptTsOf]
  · simp [resampledTrack, keptTsOf]
  · simp [resampledTrack, keptTsOf]
  · simp [resampledTrack, keptTsOf]

theorem interp_on_own_knots (ts vals : List ℚ)
    (hpw : List.Pairwise (· < ·) ts) (hlen : ts.length = vals.length) :
    ts.map (interp1d (ts.zip vals)) = vals := by
  have hmapfst : (ts.zip vals).map Prod.fst = ts :=
    List.map_fst_zip _ _ (le_of_eq hlen)
  have hpwkn : List.Pairwise (fun a b : ℚ × ℚ => a.1 < b.1) (ts.zip vals) := by
    rw [← hmapfst] at hpw
    exact List.pairwise_map.mp hpw
  apply List.ext_getElem
  · simp [hlen]
  · intro i h1 h2
    have hits : i < ts.length := by simpa using h1
    have hizip : i < (ts.zip vals).length := by
      rw [List.length_zip, hlen, Nat.min_self]
      exact h2
    rw [List.getElem_map]
    have hknot := interp1d_knot (ts.zip vals) hpwkn ((ts.zip vals)[i])
      (List.getElem_mem _)
    rw [List.getElem_zip] at hknot
    exact hknot

/-- C5: when the input records' obstimes coincide exactly with the grid
instants (nanosecond-exact configuration), there are at least two records,
and every input elevation is strictly positive, the resampled track keeps
every grid instant and its az, el and ir sequences equal the input values
(az, el, and 1/range) — piecewise-linear interpolation is exact at knot
points. -/
theorem c5_resample_exact (c : TrajectoryConfig) (records : List FileRecord)
    (s0ns Dns tns : ℤ)
    (hs : c.startTai * 10 ^ 9 = (s0ns : ℚ))
    (hD : c.durationSec * 10 ^ 9 = (Dns : ℚ))
    (ht : c.tstep * 10 ^ 9 = (tns : ℚ))
    (hDpos : 0 < Dns) (htpos : 0 < tns)
    (hcoin : records.map FileRecord.t = track_Time c)
    (h2 : 2 ≤ records.length)
    (hel : ∀ r ∈ records, 0 < r.el) :
    fromFileGen c records = some { valid := true, track := some (resampledTrack c records) } ∧
    (resampledTrack c records).timestamp = gridTsOf c ∧
    (resampledTrack c records).obstime = track_Time c ∧
    (resampledTrack c records).az = records.map FileRecord.az ∧
    (resampledTrack c records).el = records.map FileRecord.el ∧
    (resampledTrack c records).ir = records.map (fun r => 1 / r.range) := by
  have htimeLen : (track_Time c).length = records.length := by
    rw [← hcoin, List.length_map]
  have hleneq := grid_lengths_eq c Dns tns hD ht htpos
  have ht0 := tstep_pos_of_ns c tns ht htpos
  have hgridLen : (gridTsOf c).length = records.length := by
    rw [gridTsOf, List.length_map, ← hleneq, htimeLen]
  have hrne : records ≠ [] := by
    intro h
    rw [h] at h2
    simp at h2
  have hTne : track_Time c ≠ [] := by
    intro h
    rw [h] at htimeLen
    simp at htimeLen
    omega
  have hKeyA : inputTsOf records = gridTsOf c := by
    apply List.ext_getElem
    · rw [hgridLen]
      simp [inputTsOf]
    · intro i h1 h2'
      have hi : i < records.length := by simpa [inputTsOf] using h1
      have hiT : i < (track_Time c).length := by rw [htimeLen]; exact hi
      have hits : i < (track_tsns c).length := by rw [← hleneq]; exact hiT
      have h3 : i < (records.map FileRecord.t).length := by simpa using hi
      have hrt : records[i].t = (track_Time c)[i] := by
        calc records[i].t = (records.map FileRecord.t)[i] := (List.getElem_map _).symm
          _ = (track_Time c)[i] := List.getElem_of_eq hcoin h3
      have hTi : (track_Time c)[i] = c.startTai + (i : ℚ) * c.tstep := by
        rw [← getD_eq_getElem _ i hiT 0, track_Time_getD c i hiT]
      have hTsi : (track_tsns c)[i] =
          pyInt (c.startTai * 10 ^ 9) + (i : ℤ) * pyInt (c.tstep * 10 ^ 9) := by
        rw [← getD_eq_getElem _ i hits 0, track_tsns_getD c i hits]
      show (List.map (fun r => ((pyInt (r.t * 10 ^ 9) : ℤ) : ℚ)) records)[i] =
        (List.map (fun z : ℤ => (z : ℚ)) (track_tsns c))[i]
      rw [List.getElem_map, List.getElem_map, hrt, hTi, hTsi]
      have harith : (c.startTai + (i : ℚ) * c.tstep) * 10 ^ 9 =
          ((s0ns + (i : ℤ) * tns : ℤ) : ℚ) := by
        push_cast
        calc (c.startTai + (i : ℚ) * c.tstep) * 10 ^ 9
            = c.startTai * 10 ^ 9 + (i : ℚ) * (c.tstep * 10 ^ 9) := by ring
          _ = (s0ns : ℚ) + (i : ℚ) * (tns : ℚ) := by rw [hs, ht]
      rw [harith, pyInt_intCast, hs, ht, pyInt_intCast, pyInt_intCast]
  have hpwG : List.Pairwise (· < ·) (gridTsOf c) := gridTsOf_pairwise c tns ht htpos
  have hKeyB : el0Of c records = records.map FileRecord.el := by
    unfold el0Of elFun
    rw [hKeyA]
    exact interp_on_own_knots (gridTsOf c) (records.map FileRecord.el) hpwG
      (by rw [hgridLen]; simp)
  have hKeyC : validIdxOf c records = List.range records.length := by
    unfold validIdxOf
    rw [hKeyB, List.length_map]
    apply List.filter_eq_self.mpr
    intro i hi
    apply decide_eq_true
    have hi2 : i < records.length := List.mem_range.mp hi
    rw [getD_eq_getElem _ i (by simpa using hi2) 0, List.getElem_map]
    exact hel records[i] (List.getElem_mem _)
  have hkept : keptTsOf c records = gridTsOf c := by
    unfold keptTsOf
    rw [hKeyC, ← hgridLen]
    exact range_getD_map_self 0 (gridTsOf c)
  have hheadr : ∃ r0 ∈ records, (track_Time c).headI = r0.t ∧
      r0.t ≤ (track_Time c).getLastD 0 := by
    obtain ⟨r0, rest, hre⟩ := List.exists_cons_of_ne_nil hrne
    have hhead : (track_Time c).headI = r0.t := by
      rw [← hcoin, hre]
      rfl
    have hgl : (track_Time c).getLastD 0 = (track_Time c).getLast hTne := by
      rw [List.getLastD_eq_getLast?, List.getLast?_eq_getLast _ hTne]
      rfl
    have hmem : (track_Time c).headI ∈ track_Time c := by
      obtain ⟨x, xs, hx⟩ := List.exists_cons_of_ne_nil hTne
      rw [hx]
      exact List.mem_cons_self x xs
    refine ⟨r0, by rw [hre]; exact List.mem_cons_self r0 rest, hhead, ?_⟩
    rw [← hhead, hgl]
    exact key_le_getLast (fun x => x) (track_Time c) hTne
      (track_Time_pairwise c ht0) _ hmem
  refine ⟨?_, hkept, ?_, ?_, ?_, ?_⟩
  · apply fromFileGen_happy c records hTne h2
    obtain ⟨r0, hr0, hhead, hle⟩ := hheadr
    exact ⟨r0, hr0, le_of_eq hhead, hle⟩
  · show (validIdxOf c records).map (fun i => (track_Time c).getD i 0) = _
    rw [hKeyC, ← htimeLen]
    exact range_getD_map_self 0 (track_Time c)
  · show (keptTsOf c records).map (azFun records) = _
    rw [hkept]
    unfold azFun
    rw [hKeyA]
    exact interp_on_own_knots (gridTsOf c) (records.map FileRecord.az) hpwG
      (by rw [hgridLen]; simp)
  · show (validIdxOf c records).map (fun i => (el0Of c records).getD i 0) = _
    rw [hKeyC, show List.range records.length = List.range (el0Of c records).length by
      rw [hKeyB]; simp]
    rw [range_getD_map_self 0 (el0Of c records), hKeyB]
  · show (keptTsOf c records).map (irFun records) = _
    rw [hkept]
    unfold irFun
    rw [hKeyA]
    exact interp_on_own_knots (gridTsOf c) (records.map (fun r => 1 / r.range)) hpwG
      (by rw [hgridLen]; simp)

/-- The C4 witness configuration: start 0, duration 4 s, step 1 s. -/
def c4Cfg : TrajectoryConfig := ⟨0, 1 / 15, 1, 30⟩

/-- Two records at 1 s and 2 s: the grid instants 0 s and 3 s fall outside
the input's time domain. -/
def c4Records : List FileRecord := [⟨1, 10, 5, 2⟩, ⟨2, 20, 7, 4⟩]

theorem c4_time_eval : track_Time c4Cfg = [0, 1, 2, 3] := by
  have hceil : Int.toNat ⌈c4Cfg.durationSec / c4Cfg.tstep⌉ = 4 := by
    have : ⌈c4Cfg.durationSec / c4Cfg.tstep⌉ = 4 := by
      show ⌈(1 / 15 * 60 : ℚ) / 1⌉ = 4
      norm_num
    rw [this]
    rfl
  rw [track_Time, arangeQ, hceil]
  simp only [List.range_succ, List.range_zero, List.map_append, List.map_cons, List.map_nil,
    List.nil_append, List.cons_append, List.map_map]
  norm_num [c4Cfg]

theorem c4_tsns_eval : track_tsns c4Cfg = [0, 1000000000, 2000000000, 3000000000] := by
  have hstop : pyInt (c4Cfg.durationSec * 10 ^ 9) = 4000000000 := by
    show pyInt (1 / 15 * 60 * 10 ^ 9) = 4000000000
    norm_num [pyInt]
  have hstep : pyInt (c4Cfg.tstep * 10 ^ 9) = 1000000000 := by
    show pyInt (1 * 10 ^ 9) = 1000000000
    norm_num [pyInt]
  have hstart : pyInt (c4Cfg.startTai * 10 ^ 9) = 0 := by
    show pyInt (0 * 10 ^ 9) = 0
    norm_num [pyInt]
  have hceil : Int.toNat ⌈((4000000000 : ℤ) : ℚ) / ((1000000000 : ℤ) : ℚ)⌉ = 4 := by
    have : ⌈((4000000000 : ℤ) : ℚ) / ((1000000000 : ℤ) : ℚ)⌉ = 4 := by norm_num
    rw [this]
    rfl
  rw [track_tsns, hstart, hstop, hstep, arangeZ, hceil]
  simp only [List.range_succ, List.range_zero, List.map_append, List.map_cons, List.map_nil,
    List.nil_append, List.cons_append, List.map_map]
  norm_num

theorem c4_inputTs_eval : inputTsOf c4Records = [1000000000, 2000000000] := by
  have h1 : pyInt ((1 : ℚ) * 10 ^ 9) = 1000000000 := by norm_num [pyInt]
  have hb : pyInt ((2 : ℚ) * 10 ^ 9) = 2000000000 := by norm_num [pyInt]
  show [((pyInt ((1 : ℚ) * 10 ^ 9) : ℤ) : ℚ), ((pyInt ((2 : ℚ) * 10 ^ 9) : ℤ) : ℚ)] =
    [1000000000, 2000000000]
  rw [h1, hb]
  norm_num

/-- C4, witness: the resample conclusions instantiated at a concrete
partially overlapping input. -/
theorem c4_resample_filter_witness :
    fromFileGen c4Cfg c4Records =
      some { valid := true, track := some (resampledTrack c4Cfg c4Records) } ∧
    (∀ x ∈ gridTsOf c4Cfg,
      (x < (inputTsOf c4Records).headI ∨ (inputTsOf c4Records).getLastD 0 < x) →
        elFun c4Records x = 0) ∧
    (resampledTrack c4Cfg c4Records).timestamp =
      (gridTsOf c4Cfg).filter (fun x => decide (0 < elFun c4Records x)) ∧
    (resampledTrack c4Cfg c4Records).el =
      ((gridTsOf c4Cfg).map (elFun c4Records)).filter (fun e => decide (0 < e)) ∧
    (resampledTrack c4Cfg c4Records).obstime =
      (((track_Time c4Cfg).zip (gridTsOf c4Cfg)).filter
        (fun pr => decide (0 < elFun c4Records pr.2))).map Prod.fst ∧
    (resampledTrack c4Cfg c4Records).az =
      ((resampledTrack c4Cfg c4Records).timestamp).map (azFun c4Records) ∧
    (resampledTrack c4Cfg c4Records).ir =
      ((resampledTrack c4Cfg c4Records).timestamp).map (irFun c4Records) ∧
    (resampledTrack c4Cfg c4Records).el.length =
      (resampledTrack c4Cfg c4Records).timestamp.length ∧
    (resampledTrack c4Cfg c4Records).obstime.length =
      (resampledTrack c4Cfg c4Records).timestamp.length ∧
    (resampledTrack c4Cfg c4Records).az.length =
      (resampledTrack c4Cfg c4Records).timestamp.length ∧
    (resampledTrack c4Cfg c4Records).ir.length =
      (resampledTrack c4Cfg c4Records).timestamp.length :=
  c4_resample_filter c4Cfg c4Records
    (by
      rw [c4_inputTs_eval]
      simp [List.pairwise_cons]
      norm_num)
    (by decide)
    (by
      rw [c4_time_eval]
      simp)
    (by rw [c4_time_eval, c4_tsns_eval]; rfl)
    (⟨⟨1, 10, 5, 2⟩, by simp [c4Records], by
      rw [c4_time_eval]
      constructor
      · show (0 : ℚ) ≤ 1
        norm_num
      · show (1 : ℚ) ≤ [(0 : ℚ), 1, 2, 3].getLastD 0
        show (1 : ℚ) ≤ 3
        norm_num⟩)

/-- The C5 witness configuration: start 0, duration 2 s, step 1 s. -/
def c5Cfg : TrajectoryConfig := ⟨0, 1 / 30, 1, 30⟩

/-- Two records exactly at the grid instants 0 s and 1 s, elevations
positive. -/
def c5Records : List FileRecord := [⟨0, 10, 5, 2⟩, ⟨1, 20, 6, 4⟩]

theorem c5_time_eval : track_Time c5Cfg = [0, 1] := by
  have hceil : Int.toNat ⌈c5Cfg.durationSec / c5Cfg.tstep⌉ = 2 := by
    have : ⌈c5Cfg.durationSec / c5Cfg.tstep⌉ = 2 := by
      show ⌈(1 / 30 * 60 : ℚ) / 1⌉ = 2
      norm_num
    rw [this]
    rfl
  rw [track_Time, arangeQ, hceil]
  simp only [List.range_succ, List.range_zero, List.map_append, List.map_cons, List.map_nil,
    List.nil_append, List.cons_append, List.map_map]
  norm_num [c5Cfg]

/-- C5, witness: the knot-exactness conclusions instantiated at a concrete
coinciding input. -/
theorem c5_resample_exact_witness :
    fromFileGen c5Cfg c5Records =
      some { valid := true, track := some (resampledTrack c5Cfg c5Records) } ∧
    (resampledTrack c5Cfg c5Records).timestamp = gridTsOf c5Cfg ∧
    (resampledTrack c5Cfg c5Records).obstime = track_Time c5Cfg ∧
    (resampledTrack c5Cfg c5Records).az = c5Records.map FileRecord.az ∧
    (resampledTrack c5Cfg c5Records).el = c5Records.map FileRecord.el ∧
    (resampledTrack c5Cfg c5Records).ir = c5Records.map (fun r => 1 / r.range) :=
  c5_resample_exact c5Cfg c5Records 0 2000000000 1000000000
    (by norm_num [c5Cfg])
    (by
      show (1 / 30 * 60 : ℚ) * 10 ^ 9 = ((2000000000 : ℤ) : ℚ)
      norm_num)
    (by
      show (1 : ℚ) * 10 ^ 9 = ((1000000000 : ℤ) : ℚ)
      norm_num)
    (by norm_num) (by norm_num)
    (by
      rw [c5_time_eval]
      show [(0 : ℚ), 1] = [0, 1]
      rfl)
    (by decide)
    (by
      intro r hr
      rcases List.mem_cons.mp hr with rfl | hr2
      · show (0 : ℚ) < 5
        norm_num
      · have : r = (⟨1, 20, 6, 4⟩ : FileRecord) := by simpa using hr2
        subst this
        show (0 : ℚ) < 6
        norm_num)

end Obsnerd
